import Mathlib

/-!
Shallow embedding of the pce-coredns record-synthesis and query-resolution
engine (repository PextraCloud/pce-coredns), with theorems checking the
natural-language specification against the code.

Modelling conventions:
* Go strings are modelled as `List Char` (characters standing for bytes).
* Go maps are modelled as association lists; iteration is in list order
  (map iteration order is irrelevant to the membership properties proved here).
* `net.IP` values are modelled by the opaque wrapper `NetIP`; the external
  library function `net.ParseIP` is a parameter `parseIP : GoStr → Option NetIP`
  (`none` models a nil result for an invalid address string).
* Fallible Go functions returning `(T, error)` are modelled with `Except` or
  with explicit `Option` error components.
-/

/-- Go strings, modelled as lists of characters (standing for bytes). -/
abbrev GoStr := List Char

/-- Turns a Lean string literal into the Go-string model. -/
def gs (s : String) : GoStr := s.data

/-- Number of consecutive backslash characters at the end of a string
(used by the model of miekg/dns `IsFqdn`). -/
def countTrailingBackslashes (s : GoStr) : Nat :=
  (s.reverse.takeWhile (fun c => c == '\\')).length

/-- Model of miekg/dns `IsFqdn`: the name ends in an unescaped dot, i.e. the
final character is a dot and it is preceded by an even number of backslashes. -/
def isFqdnGo (s : GoStr) : Bool :=
  match s.getLast? with
  | some '.' => countTrailingBackslashes s.dropLast % 2 == 0
  | _ => false

/-- Model of miekg/dns `Fqdn`: appends a trailing dot unless the name already
ends in an unescaped dot. -/
def fqdnGo (s : GoStr) : GoStr :=
  if isFqdnGo s then s else s ++ ['.']

/-- Model of miekg/dns `CanonicalName`: `strings.ToLower(Fqdn(s))`; lowercasing
is modelled on ASCII letters via `Char.toLower` (agreeing with Go on the ASCII
subset relevant to these names). -/
def canonicalName (s : GoStr) : GoStr :=
  (fqdnGo s).map Char.toLower

/-- Model of a `net.IP` value produced by a successful `net.ParseIP`. -/
structure NetIP where
  raw : GoStr
deriving DecidableEq, Repr

/-- DNS wire type code `dns.TypeA`. -/
def TypeA : Nat := 1
/-- DNS wire type code `dns.TypeAAAA`. -/
def TypeAAAA : Nat := 28
/-- DNS wire type code `dns.TypeCNAME`. -/
def TypeCNAME : Nat := 5
/-- DNS wire type code `dns.TypeSRV`. -/
def TypeSRV : Nat := 33
/-- DNS wire type code `dns.TypeTXT`. -/
def TypeTXT : Nat := 16
/-- DNS wire type code `dns.TypeANY`. -/
def TypeANY : Nat := 255

/-- DNS rcode `dns.RcodeSuccess` (NOERROR). -/
def RcodeSuccess : Nat := 0
/-- DNS rcode `dns.RcodeServerFailure` (SERVFAIL). -/
def RcodeServerFailure : Nat := 2
/-- DNS rcode `dns.RcodeNameError` (NXDOMAIN). -/
def RcodeNameError : Nat := 3

/-- Model of `util.RecordContent` (also `dbRecordContent` in `record.go`):
one struct holding the fields of every record kind, with Go zero values as
defaults (`nil` IP, empty strings, zero integers). -/
structure RecordContent where
  IP : Option NetIP := none
  CNAME : GoStr := []
  Priority : Nat := 0
  Weight : Nat := 0
  Port : Nat := 0
  Target : GoStr := []
  Data : GoStr := []
deriving DecidableEq, Repr

/-- Model of `util.Record` (also `dbRecord` in `record.go`). The Go field
`Type` is rendered `Typ` because `Type` is a Lean keyword. -/
structure Record where
  FQDN : GoStr
  Typ : Nat
  TTL : Nat
  Content : RecordContent
deriving DecidableEq, Repr

/-- Model of `splitTxtData` (`record.go` / `internal/util`): splits a TXT
payload into chunks of at most 255 bytes, the final chunk being whatever
remains (possibly empty). -/
def splitTxtData (content : GoStr) : List GoStr :=
  if h : 255 < content.length then
    content.take 255 :: splitTxtData (content.drop 255)
  else [content]
termination_by content.length
decreasing_by simp [List.length_drop]; omega

/-- Model of `zoneBase` in `internal/util/zones.go`. -/
def zoneBase : GoStr := gs "pce.internal."

/-- Model of `util.ZoneDynamic` (`internal/util/zones.go`). -/
def ZoneDynamic : GoStr := zoneBase

/-- Model of `util.ZoneBootstrap` (`internal/util/zones.go`). -/
def ZoneBootstrap : GoStr := gs "bootstrap." ++ zoneBase

/-- Model of `util.ZonesList` (`internal/util/zones.go`). -/
def ZonesList : List GoStr := [ZoneDynamic, ZoneBootstrap]

/-- Model of the matching loop body of the dynamic adapter
`Plugin.LookupRecords` (`internal/db/db.go`, lines 222-234): skip the record
when its canonical name differs from the canonical query name, keep it when
the query type is ANY or equals the record type, keep it in the special case
of an A/AAAA query meeting a CNAME record, and otherwise skip it. -/
def dbLookupStep (name : GoStr) (qtype : Nat) (filtered : List Record) (r : Record) :
    List Record :=
  if canonicalName r.FQDN ≠ canonicalName name then filtered
  else if qtype = TypeANY ∨ r.Typ = qtype then filtered ++ [r]
  else if (qtype = TypeA ∨ qtype = TypeAAAA) ∧ r.Typ = TypeCNAME then filtered ++ [r]
  else filtered

/-- The matching loop of the dynamic adapter `Plugin.LookupRecords`
(`internal/db/db.go`): folds `dbLookupStep` over the loaded records. -/
def dbFilterRecords (records : List Record) (name : GoStr) (qtype : Nat) : List Record :=
  records.foldl (dbLookupStep name qtype) []

/-- Loop body of the static adapter `Plugin.LookupRecords`
(`src/unnamed/part_005`, lines 119-132): same matching chain as the dynamic
adapter, additionally recording in the second component whether any record
matched the name regardless of type (`nameExists`). -/
def staticLookupScan (name : GoStr) (qtype : Nat) (acc : List Record × Bool)
    (r : Record) : List Record × Bool :=
  if canonicalName r.FQDN ≠ canonicalName name then acc
  else if qtype = TypeANY ∨ r.Typ = qtype then (acc.1 ++ [r], true)
  else if (qtype = TypeA ∨ qtype = TypeAAAA) ∧ r.Typ = TypeCNAME then (acc.1 ++ [r], true)
  else (acc.1, true)

/-- Model of the static adapter `Plugin.LookupRecords`
(`src/unnamed/part_005`, lines 111-135) over the cached record set: returns
`(records, nameExists, error)`; the source returns a nil error on every path,
modelled as `none`. -/
def staticLookupRecords (cached : List Record) (name : GoStr) (qtype : Nat) :
    List Record × Bool × Option GoStr :=
  let res := cached.foldl (staticLookupScan name qtype) ([], false)
  (res.1, res.2, none)

/-- The accept decision of the query matcher, as a boolean function of one
record (proof-side repackaging of the shared loop chain). -/
def lookupAccepts (nameFqdn : GoStr) (qtype : Nat) (r : Record) : Bool :=
  if canonicalName r.FQDN ≠ nameFqdn then false
  else if qtype = TypeANY ∨ r.Typ = qtype then true
  else if (qtype = TypeA ∨ qtype = TypeAAAA) ∧ r.Typ = TypeCNAME then true
  else false

theorem foldl_append_filter {α : Type} (p : α → Bool) (l : List α) (acc : List α) :
    l.foldl (fun res x => if p x then res ++ [x] else res) acc = acc ++ l.filter p := by
  induction l generalizing acc with
  | nil => simp
  | cons x xs ih => by_cases h : p x <;> simp [List.filter_cons, h, ih]

theorem dbLookupStep_eq (name : GoStr) (qtype : Nat) (filtered : List Record) (r : Record) :
    dbLookupStep name qtype filtered r =
      if lookupAccepts (canonicalName name) qtype r then filtered ++ [r] else filtered := by
  by_cases hn : canonicalName r.FQDN = canonicalName name
  · by_cases h1 : qtype = TypeANY ∨ r.Typ = qtype
    · simp [dbLookupStep, lookupAccepts, hn, h1]
    · by_cases h2 : (qtype = TypeA ∨ qtype = TypeAAAA) ∧ r.Typ = TypeCNAME
      · simp [dbLookupStep, lookupAccepts, hn, h1, h2]
      · simp [dbLookupStep, lookupAccepts, hn, h1, h2]
  · simp [dbLookupStep, lookupAccepts, hn]

theorem dbFilterRecords_eq_filter (records : List Record) (name : GoStr) (qtype : Nat) :
    dbFilterRecords records name qtype =
      records.filter (lookupAccepts (canonicalName name) qtype) := by
  unfold dbFilterRecords
  rw [show dbLookupStep name qtype = (fun res x =>
        if lookupAccepts (canonicalName name) qtype x then res ++ [x] else res) from
      funext fun res => funext fun x => dbLookupStep_eq name qtype res x]
  exact foldl_append_filter _ records []

theorem staticLookupScan_eq (name : GoStr) (qtype : Nat) (acc : List Record × Bool)
    (r : Record) :
    staticLookupScan name qtype acc r =
      (dbLookupStep name qtype acc.1 r,
        acc.2 || decide (canonicalName r.FQDN = canonicalName name)) := by
  by_cases hn : canonicalName r.FQDN = canonicalName name
  · by_cases h1 : qtype = TypeANY ∨ r.Typ = qtype
    · simp [staticLookupScan, dbLookupStep, hn, h1]
    · by_cases h2 : (qtype = TypeA ∨ qtype = TypeAAAA) ∧ r.Typ = TypeCNAME
      · simp [staticLookupScan, dbLookupStep, hn, h1, h2]
      · simp [staticLookupScan, dbLookupStep, hn, h1, h2]
  · simp [staticLookupScan, dbLookupStep, hn]

theorem staticFold_fst (name : GoStr) (qtype : Nat) :
    ∀ (l : List Record) (acc : List Record × Bool),
      (l.foldl (staticLookupScan name qtype) acc).1 =
        l.foldl (dbLookupStep name qtype) acc.1
  | [], _ => rfl
  | x :: xs, acc => by
      rw [List.foldl_cons, List.foldl_cons, staticLookupScan_eq]
      exact staticFold_fst name qtype xs _

theorem staticLookup_fst_eq_filter (cached : List Record) (name : GoStr) (qtype : Nat) :
    (staticLookupRecords cached name qtype).1 =
      cached.filter (lookupAccepts (canonicalName name) qtype) := by
  show (cached.foldl (staticLookupScan name qtype) ([], false)).1 = _
  rw [staticFold_fst name qtype cached ([], false)]
  exact dbFilterRecords_eq_filter cached name qtype

theorem lookupAccepts_iff (name : GoStr) (qtype : Nat) (r : Record)
    (hcanon : canonicalName name = name) :
    lookupAccepts (canonicalName name) qtype r = true ↔
      (canonicalName r.FQDN = name ∧
        (qtype = TypeANY ∨ r.Typ = qtype ∨
          ((qtype = TypeA ∨ qtype = TypeAAAA) ∧ r.Typ = TypeCNAME))) := by
  rw [hcanon]
  by_cases hn : canonicalName r.FQDN = name
  · by_cases h1 : qtype = TypeANY ∨ r.Typ = qtype
    · simp [lookupAccepts, hn, h1] <;> tauto
    · by_cases h2 : (qtype = TypeA ∨ qtype = TypeAAAA) ∧ r.Typ = TypeCNAME
      · simp [lookupAccepts, hn, h1, h2] <;> tauto
      · simp [lookupAccepts, hn, h1, h2] <;> tauto
  · simp [lookupAccepts, hn] <;> tauto

/-- C1: for every record collection, canonical query name and query type, both
adapters' matcher returns exactly those records whose canonical name equals
the query name and whose type is accepted (ANY query, equal type, or CNAME
under an A/AAAA query); records failing either test are never returned. -/
theorem c1_query_matcher_exact (records : List Record) (n : GoStr) (t : Nat)
    (hcanon : canonicalName n = n) (r : Record) :
    (r ∈ dbFilterRecords records n t ↔
      r ∈ records ∧ canonicalName r.FQDN = n ∧
        (t = TypeANY ∨ r.Typ = t ∨ ((t = TypeA ∨ t = TypeAAAA) ∧ r.Typ = TypeCNAME))) ∧
    (r ∈ (staticLookupRecords records n t).1 ↔
      r ∈ records ∧ canonicalName r.FQDN = n ∧
        (t = TypeANY ∨ r.Typ = t ∨ ((t = TypeA ∨ t = TypeAAAA) ∧ r.Typ = TypeCNAME))) := by
  rw [dbFilterRecords_eq_filter, staticLookup_fst_eq_filter]
  constructor <;> rw [List.mem_filter, lookupAccepts_iff n t r hcanon]

/-- A sample record used by concrete witnesses. -/
def sampleARecord : Record :=
  { FQDN := gs "a.pce.internal.", Typ := TypeA, TTL := 30, Content := {} }

/-- Witness for C1 at a concrete collection, name and type. -/
theorem c1_query_matcher_exact_witness :
    (sampleARecord ∈ dbFilterRecords [sampleARecord] (gs "a.pce.internal.") TypeANY ↔
      sampleARecord ∈ [sampleARecord] ∧
        canonicalName sampleARecord.FQDN = gs "a.pce.internal." ∧
        (TypeANY = TypeANY ∨ sampleARecord.Typ = TypeANY ∨
          ((TypeANY = TypeA ∨ TypeANY = TypeAAAA) ∧ sampleARecord.Typ = TypeCNAME))) ∧
    (sampleARecord ∈ (staticLookupRecords [sampleARecord] (gs "a.pce.internal.") TypeANY).1 ↔
      sampleARecord ∈ [sampleARecord] ∧
        canonicalName sampleARecord.FQDN = gs "a.pce.internal." ∧
        (TypeANY = TypeANY ∨ sampleARecord.Typ = TypeANY ∨
          ((TypeANY = TypeA ∨ TypeANY = TypeAAAA) ∧ sampleARecord.Typ = TypeCNAME))) :=
  c1_query_matcher_exact [sampleARecord] (gs "a.pce.internal.") TypeANY (by decide) sampleARecord

/-- C10: the static adapter lookup returns a nil error for every cached record
set, query name and query type: the static lookup path never produces its own
failure. -/
theorem c10_static_lookup_no_error (cached : List Record) (name : GoStr) (qtype : Nat) :
    (staticLookupRecords cached name qtype).2.2 = none := rfl

/-- C8: for every TXT payload, every chunk produced by `splitTxtData` has
length at most 255, and concatenating the chunks in order reproduces the
payload exactly. -/
theorem c8_splitTxtData_roundtrip (s : GoStr) :
    (∀ c ∈ splitTxtData s, c.length ≤ 255) ∧ (splitTxtData s).flatten = s := by
  induction s using splitTxtData.induct with
  | case1 s h ih =>
      rw [splitTxtData, dif_pos h]
      refine ⟨?_, ?_⟩
      · intro c hc
        rcases List.mem_cons.mp hc with rfl | hc
        · simpa using Nat.min_le_left 255 s.length
        · exact ih.1 c hc
      · simpa [List.flatten, ih.2] using List.take_append_drop 255 s
  | case2 s h =>
      rw [splitTxtData, dif_neg h]
      refine ⟨?_, by simp⟩
      intro c hc
      simp only [List.mem_singleton] at hc
      subst hc
      omega

/-- Model of the wire resource-record values built by the `As*Record` methods
in `record.go` / `internal/util`: one constructor per supported type, carrying
the header name and TTL plus the type-specific payload. -/
inductive WireRR
  | a (name : GoStr) (ttl : Nat) (ip : Option NetIP)
  | aaaa (name : GoStr) (ttl : Nat) (ip : Option NetIP)
  | cname (name : GoStr) (ttl : Nat) (target : GoStr)
  | srv (name : GoStr) (ttl : Nat) (priority weight port : Nat) (target : GoStr)
  | txt (name : GoStr) (ttl : Nat) (chunks : List GoStr)
deriving DecidableEq, Repr

/-- Model of `AsARecord`: copies the stored IP verbatim. -/
def AsARecord (r : Record) : WireRR := .a r.FQDN r.TTL r.Content.IP

/-- Model of `AsAAAARecord`: copies the stored IP verbatim. -/
def AsAAAARecord (r : Record) : WireRR := .aaaa r.FQDN r.TTL r.Content.IP

/-- Model of `AsCNAMERecord`: re-canonicalizes the target with `dns.Fqdn`. -/
def AsCNAMERecord (r : Record) : WireRR := .cname r.FQDN r.TTL (fqdnGo r.Content.CNAME)

/-- Model of `AsSRVRecord`: copies priority, weight and port, re-canonicalizes
the target with `dns.Fqdn`. -/
def AsSRVRecord (r : Record) : WireRR :=
  .srv r.FQDN r.TTL r.Content.Priority r.Content.Weight r.Content.Port (fqdnGo r.Content.Target)

/-- Model of `AsTXTRecord`: splits the payload with `splitTxtData`. -/
def AsTXTRecord (r : Record) : WireRR := .txt r.FQDN r.TTL (splitTxtData r.Content.Data)

/-- The error message built by `recordToRR` for an unsupported type. -/
def unsupportedTypeMsg (t : Nat) : GoStr := gs "unsupported record type: " ++ gs (toString t)

/-- Model of `recordToRR` (`record.go`, lines 124-139): dispatches on the
record type; any type other than A, AAAA, CNAME, SRV, TXT is an error. -/
def recordToRR (record : Record) : Except GoStr WireRR :=
  if record.Typ = TypeA then .ok (AsARecord record)
  else if record.Typ = TypeAAAA then .ok (AsAAAARecord record)
  else if record.Typ = TypeCNAME then .ok (AsCNAMERecord record)
  else if record.Typ = TypeSRV then .ok (AsSRVRecord record)
  else if record.Typ = TypeTXT then .ok (AsTXTRecord record)
  else .error (unsupportedTypeMsg record.Typ)

/-- The loop of `recordsToRRs` (`record.go`, lines 141-151) with its
accumulated answers: on the first failure it discards the partial output and
returns `(nil, ServerFailure, err)`; otherwise `(answers, Success, nil)`.
The nil slice is modelled by `none`. -/
def recordsToRRsGo (acc : List WireRR) :
    List Record → Option (List WireRR) × Nat × Option GoStr
  | [] => (some acc, RcodeSuccess, none)
  | r :: rest =>
    match recordToRR r with
    | .error e => (none, RcodeServerFailure, some e)
    | .ok rr => recordsToRRsGo (acc ++ [rr]) rest

/-- Model of `recordsToRRs` (`record.go`): encodes a record sequence
all-or-nothing. -/
def recordsToRRs (records : List Record) : Option (List WireRR) × Nat × Option GoStr :=
  recordsToRRsGo [] records

/-- The record types supported by the encoder. -/
def supportedRRTypes : List Nat := [TypeA, TypeAAAA, TypeCNAME, TypeSRV, TypeTXT]

theorem recordToRR_ok_of_supported (r : Record) (h : r.Typ ∈ supportedRRTypes) :
    ∃ w, recordToRR r = Except.ok w := by
  simp only [supportedRRTypes, List.mem_cons, List.not_mem_nil, or_false] at h
  rcases h with h | h | h | h | h
  · exact ⟨AsARecord r, by simp [recordToRR, h, TypeA, TypeAAAA, TypeCNAME, TypeSRV, TypeTXT]⟩
  · exact ⟨AsAAAARecord r, by simp [recordToRR, h, TypeA, TypeAAAA, TypeCNAME, TypeSRV, TypeTXT]⟩
  · exact ⟨AsCNAMERecord r, by simp [recordToRR, h, TypeA, TypeAAAA, TypeCNAME, TypeSRV, TypeTXT]⟩
  · exact ⟨AsSRVRecord r, by simp [recordToRR, h, TypeA, TypeAAAA, TypeCNAME, TypeSRV, TypeTXT]⟩
  · exact ⟨AsTXTRecord r, by simp [recordToRR, h, TypeA, TypeAAAA, TypeCNAME, TypeSRV, TypeTXT]⟩

theorem recordToRR_error_of_unsupported (r : Record) (h : r.Typ ∉ supportedRRTypes) :
    recordToRR r = Except.error (unsupportedTypeMsg r.Typ) := by
  simp only [supportedRRTypes, List.mem_cons, List.not_mem_nil, or_false, not_or] at h
  obtain ⟨h1, h2, h3, h4, h5⟩ := h
  simp [recordToRR, h1, h2, h3, h4, h5]

theorem recordsToRRsGo_ok (l : List Record) :
    ∀ acc : List WireRR, (∀ r ∈ l, r.Typ ∈ supportedRRTypes) →
      ∃ ws, recordsToRRsGo acc l = (some (acc ++ ws), RcodeSuccess, none) ∧
        List.Forall₂ (fun r w => recordToRR r = Except.ok w) l ws := by
  induction l with
  | nil => intro acc _; exact ⟨[], by simp [recordsToRRsGo]⟩
  | cons x xs ih =>
      intro acc h
      obtain ⟨w, hw⟩ := recordToRR_ok_of_supported x (h x (List.mem_cons_self x xs))
      obtain ⟨ws, hws, hall⟩ := ih (acc ++ [w]) (fun r hr => h r (List.mem_cons_of_mem x hr))
      refine ⟨w :: ws, ?_, List.Forall₂.cons hw hall⟩
      simp only [recordsToRRsGo, hw]
      simpa [List.append_assoc] using hws

theorem recordsToRRsGo_error (l : List Record) :
    ∀ (acc : List WireRR) (r : Record),
      l.find? (fun r => decide (r.Typ ∉ supportedRRTypes)) = some r →
      recordsToRRsGo acc l = (none, RcodeServerFailure, some (unsupportedTypeMsg r.Typ)) := by
  induction l with
  | nil => intro acc r h; simp [List.find?] at h
  | cons x xs ih =>
      intro acc r h
      rw [List.find?_cons] at h
      by_cases hx : x.Typ ∈ supportedRRTypes
      · have hd : decide (x.Typ ∉ supportedRRTypes) = false := by simpa using hx
        rw [hd] at h
        obtain ⟨w, hw⟩ := recordToRR_ok_of_supported x hx
        simp only [recordsToRRsGo, hw]
        exact ih (acc ++ [w]) r h
      · have hd : decide (x.Typ ∉ supportedRRTypes) = true := by simpa using hx
        rw [hd] at h
        obtain rfl : x = r := by simpa using h
        simp only [recordsToRRsGo, recordToRR_error_of_unsupported x hx]

/-- C7: encoding is all-or-nothing. If every record type is supported,
`recordsToRRs` yields exactly one wire RR per record (in order) with Success
status and no error (the empty sequence yields empty answers with Success);
if some record type is unsupported, it yields nil answers, ServerFailure, and
the error for the first unsupported record. -/
theorem c7_recordsToRRs_all_or_nothing (records : List Record) :
    ((∀ r ∈ records, r.Typ ∈ supportedRRTypes) →
      ∃ answers, recordsToRRs records = (some answers, RcodeSuccess, none) ∧
        List.Forall₂ (fun r w => recordToRR r = Except.ok w) records answers) ∧
    (∀ r, records.find? (fun r => decide (r.Typ ∉ supportedRRTypes)) = some r →
      recordsToRRs records = (none, RcodeServerFailure, some (unsupportedTypeMsg r.Typ))) := by
  constructor
  · intro h
    obtain ⟨ws, hws, hall⟩ := recordsToRRsGo_ok records [] h
    exact ⟨ws, by simpa [recordsToRRs] using hws, hall⟩
  · intro r h
    exact recordsToRRsGo_error records [] r h

/-- A record with an unsupported type, used by concrete witnesses. -/
def badTypeRecord : Record :=
  { FQDN := gs "b.pce.internal.", Typ := 99, TTL := 30, Content := {} }

/-- Witness for C7 at concrete record sequences. -/
theorem c7_recordsToRRs_all_or_nothing_witness :
    (∃ answers, recordsToRRs [sampleARecord] = (some answers, RcodeSuccess, none) ∧
      List.Forall₂ (fun r w => recordToRR r = Except.ok w) [sampleARecord] answers) ∧
    recordsToRRs [badTypeRecord] =
      (none, RcodeServerFailure, some (unsupportedTypeMsg badTypeRecord.Typ)) :=
  ⟨(c7_recordsToRRs_all_or_nothing [sampleARecord]).1 (by decide),
    (c7_recordsToRRs_all_or_nothing [badTypeRecord]).2 badTypeRecord (by decide)⟩

/-- Model of the row struct `nodeRecord` (`internal/db/db.go`). -/
structure NodeRecord where
  Address : GoStr
  AddressFamily : GoStr
  IsDefault : Bool
  Roles : List GoStr
deriving DecidableEq, Repr

/-- Model of `defaultAddressMapV` (`internal/db/db.go`). -/
structure DefaultAddressMapV where
  Address : GoStr
  AddressFamily : GoStr
deriving DecidableEq, Repr

/-- Go map lookup over the association-list model (keys produced by
`scanNodeRecords` are unique, so first match suffices). -/
def goMapLookup {β : Type} (m : List (GoStr × β)) (k : GoStr) : Option β :=
  match m with
  | [] => none
  | (k2, v) :: rest => if k2 = k then some v else goMapLookup rest k

/-- Model of `getFqdnsForNode` (`internal/db/db.go`, lines 55-62, the current
version): one canonical FQDN `<nodeId>-<role>.<dynamic zone>` per role; the
default flag plays no part here. -/
def getFqdnsForNode (nodeId : GoStr) (roles : List GoStr) : List GoStr :=
  roles.foldl (fun fqdns role =>
    fqdns ++ [canonicalName (nodeId ++ gs "-" ++ role ++ gs "." ++ ZoneDynamic)]) []

/-- Model of `buildIPRecords` (`internal/db/db.go`): one record per FQDN with
the given type, TTL 30 and the resolved IP. -/
def buildIPRecords (fqdns : List GoStr) (recordType : Nat) (ip : NetIP) : List Record :=
  fqdns.map (fun fqdn =>
    { FQDN := fqdn, Typ := recordType, TTL := 30, Content := { IP := some ip } })

/-- Model of `recordsForNodeRecord` (`internal/db/db.go`, lines 177-193):
an unparseable address skips the row (`ok []`, mirroring the `nil, nil`
return); an address family other than "4"/"6" is an error. The IP parse is
checked before the family switch, exactly as in the source. -/
def recordsForNodeRecord (parseIP : GoStr → Option NetIP) (nodeId : GoStr)
    (r : NodeRecord) : Except GoStr (List Record) :=
  let fqdns := getFqdnsForNode nodeId r.Roles
  match parseIP r.Address with
  | none => .ok []
  | some ip =>
    if r.AddressFamily = gs "4" then .ok (buildIPRecords fqdns TypeA ip)
    else if r.AddressFamily = gs "6" then .ok (buildIPRecords fqdns TypeAAAA ip)
    else .error (gs "unknown address family " ++ r.AddressFamily ++ gs " for node " ++ nodeId)

/-- The set of explicitly assigned roles of a node's rows, gathered as in
`expandRolesWithDefaults` (`internal/db/db.go`, lines 154-159); modelled as a
list with membership as the set-containment check. -/
def assignedRolesOf (nodeRecords : List NodeRecord) : List GoStr :=
  nodeRecords.foldl (fun acc r => acc ++ r.Roles) []

/-- Model of `expandRolesWithDefaults` (`internal/db/db.go`, lines 152-175):
if the node has a default address, append one synthetic default-address row
per catalog role not explicitly assigned; otherwise return the rows
unchanged. The role catalog `util.RolesList` is not among the provided
sources, so it is passed as the explicit parameter `rolesList`. -/
def expandRolesWithDefaults (nodeId : GoStr) (nodeRecords : List NodeRecord)
    (defaultAddressMap : List (GoStr × DefaultAddressMapV)) (rolesList : List GoStr) :
    List NodeRecord :=
  match goMapLookup defaultAddressMap nodeId with
  | none => nodeRecords
  | some defaultAddr =>
    nodeRecords ++
      (rolesList.filter (fun role => !decide (role ∈ assignedRolesOf nodeRecords))).map
        (fun role =>
          { Address := defaultAddr.Address, AddressFamily := defaultAddr.AddressFamily,
            IsDefault := true, Roles := [role] })

/-- Inner loop of `buildDNSRecords`: process one node's (expanded) rows,
appending each row's records, stopping at the first error. -/
def buildRowsGo (parseIP : GoStr → Option NetIP) (nodeId : GoStr) (acc : List Record) :
    List NodeRecord → Except GoStr (List Record)
  | [] => .ok acc
  | r :: rest =>
    match recordsForNodeRecord parseIP nodeId r with
    | .error e => .error e
    | .ok recs => buildRowsGo parseIP nodeId (acc ++ recs) rest

/-- Outer loop of `buildDNSRecords` (`internal/db/db.go`, lines 134-150):
process each node in turn, expanding roles with defaults first. -/
def buildNodesGo (parseIP : GoStr → Option NetIP)
    (defaultAddressMap : List (GoStr × DefaultAddressMapV)) (rolesList : List GoStr)
    (acc : List Record) :
    List (GoStr × List NodeRecord) → Except GoStr (List Record)
  | [] => .ok acc
  | (nodeId, rows) :: rest =>
    match buildRowsGo parseIP nodeId acc
        (expandRolesWithDefaults nodeId rows defaultAddressMap rolesList) with
    | .error e => .error e
    | .ok acc2 => buildNodesGo parseIP defaultAddressMap rolesList acc2 rest

/-- Model of `buildDNSRecords` (`internal/db/db.go`): the record-synthesis
pass of the dynamic load over scanned rows grouped by node. -/
def buildDNSRecords (parseIP : GoStr → Option NetIP)
    (nodeRecordsMap : List (GoStr × List NodeRecord))
    (defaultAddressMap : List (GoStr × DefaultAddressMapV)) (rolesList : List GoStr) :
    Except GoStr (List Record) :=
  buildNodesGo parseIP defaultAddressMap rolesList [] nodeRecordsMap

/-- The records a single row contributes when it does not abort the load
(proof-side helper; an erroring row is mapped to `[]`, a case excluded
wherever this is used). -/
def rowRecordsOk (parseIP : GoStr → Option NetIP) (nodeId : GoStr) (r : NodeRecord) :
    List Record :=
  match recordsForNodeRecord parseIP nodeId r with
  | .ok recs => recs
  | .error _ => []

/-- The full record set of a successful dynamic synthesis pass (proof-side
helper). -/
def dynRecordsFlatten (parseIP : GoStr → Option NetIP)
    (nodeRecordsMap : List (GoStr × List NodeRecord))
    (defaultAddressMap : List (GoStr × DefaultAddressMapV)) (rolesList : List GoStr) :
    List Record :=
  nodeRecordsMap.flatMap (fun p =>
    (expandRolesWithDefaults p.1 p.2 defaultAddressMap rolesList).flatMap
      (rowRecordsOk parseIP p.1))

/-- A row does not abort the load exactly when a parseable address comes with
a recognized family. -/
def NodeRowOk (parseIP : GoStr → Option NetIP) (r : NodeRecord) : Prop :=
  (∃ ip, parseIP r.Address = some ip) →
    (r.AddressFamily = gs "4" ∨ r.AddressFamily = gs "6")

theorem recordsForNodeRecord_ok_iff (parseIP : GoStr → Option NetIP) (nodeId : GoStr)
    (r : NodeRecord) :
    (∃ v, recordsForNodeRecord parseIP nodeId r = Except.ok v) ↔ NodeRowOk parseIP r := by
  unfold recordsForNodeRecord NodeRowOk
  cases hp : parseIP r.Address with
  | none =>
      simp only [hp]
      constructor
      · intro _ h
        obtain ⟨ip, hip⟩ := h
        simp [hp] at hip
      · intro _
        exact ⟨[], rfl⟩
  | some ip =>
      simp only [hp]
      by_cases h4 : r.AddressFamily = gs "4"
      · rw [if_pos h4]
        simp [h4]
      · rw [if_neg h4]
        by_cases h6 : r.AddressFamily = gs "6"
        · rw [if_pos h6]
          simp [h6]
        · rw [if_neg h6]
          constructor
          · rintro ⟨v, hv⟩
            simp at hv
          · intro h
            exact absurd (h ⟨ip, rfl⟩) (by tauto)

theorem buildRowsGo_ok_intro (parseIP : GoStr → Option NetIP) (nodeId : GoStr)
    (rows : List NodeRecord) :
    ∀ acc : List Record,
      (∀ r ∈ rows, ∃ v, recordsForNodeRecord parseIP nodeId r = Except.ok v) →
      buildRowsGo parseIP nodeId acc rows =
        Except.ok (acc ++ rows.flatMap (rowRecordsOk parseIP nodeId)) := by
  induction rows with
  | nil => intro acc _; simp [buildRowsGo]
  | cons r rest ih =>
      intro acc h
      obtain ⟨v, hv⟩ := h r (List.mem_cons_self r rest)
      simp only [buildRowsGo, hv]
      rw [ih (acc ++ v) (fun x hx => h x (List.mem_cons_of_mem r hx))]
      simp [rowRecordsOk, hv, List.append_assoc]

theorem buildRowsGo_ok_elim (parseIP : GoStr → Option NetIP) (nodeId : GoStr)
    (rows : List NodeRecord) :
    ∀ (acc : List Record) (v : List Record),
      buildRowsGo parseIP nodeId acc rows = Except.ok v →
      ∀ r ∈ rows, ∃ w, recordsForNodeRecord parseIP nodeId r = Except.ok w := by
  induction rows with
  | nil => intro acc v _ r hr; simp at hr
  | cons x rest ih =>
      intro acc v h r hr
      cases hx : recordsForNodeRecord parseIP nodeId x with
      | error e =>
          simp [buildRowsGo, hx] at h
      | ok recs =>
          rcases List.mem_cons.mp hr with rfl | hr2
          · exact ⟨recs, hx⟩
          · simp only [buildRowsGo, hx] at h
            exact ih (acc ++ recs) v h r hr2

theorem buildNodesGo_ok_intro (parseIP : GoStr → Option NetIP)
    (d : List (GoStr × DefaultAddressMapV)) (rolesList : List GoStr)
    (m : List (GoStr × List NodeRecord)) :
    ∀ acc : List Record,
      (∀ p ∈ m, ∀ r ∈ expandRolesWithDefaults p.1 p.2 d rolesList,
        ∃ w, recordsForNodeRecord parseIP p.1 r = Except.ok w) →
      buildNodesGo parseIP d rolesList acc m =
        Except.ok (acc ++ m.flatMap (fun p =>
          (expandRolesWithDefaults p.1 p.2 d rolesList).flatMap (rowRecordsOk parseIP p.1))) := by
  induction m with
  | nil => intro acc _; simp [buildNodesGo]
  | cons p rest ih =>
      intro acc h
      obtain ⟨nodeId, rows⟩ := p
      have hrow := buildRowsGo_ok_intro parseIP nodeId
        (expandRolesWithDefaults nodeId rows d rolesList) acc
        (h (nodeId, rows) (List.mem_cons_self _ _))
      simp only [buildNodesGo, hrow]
      rw [ih _ (fun q hq => h q (List.mem_cons_of_mem _ hq))]
      simp [List.append_assoc]

theorem buildNodesGo_ok_elim (parseIP : GoStr → Option NetIP)
    (d : List (GoStr × DefaultAddressMapV)) (rolesList : List GoStr)
    (m : List (GoStr × List NodeRecord)) :
    ∀ (acc v : List Record),
      buildNodesGo parseIP d rolesList acc m = Except.ok v →
      (v = acc ++ m.flatMap (fun p =>
          (expandRolesWithDefaults p.1 p.2 d rolesList).flatMap (rowRecordsOk parseIP p.1)) ∧
        ∀ p ∈ m, ∀ r ∈ expandRolesWithDefaults p.1 p.2 d rolesList,
          ∃ w, recordsForNodeRecord parseIP p.1 r = Except.ok w) := by
  induction m with
  | nil =>
      intro acc v h
      simp only [buildNodesGo] at h
      obtain rfl : acc = v := by simpa using h
      exact ⟨by simp, by simp⟩
  | cons p rest ih =>
      intro acc v h
      obtain ⟨nodeId, rows⟩ := p
      cases hb : buildRowsGo parseIP nodeId acc
          (expandRolesWithDefaults nodeId rows d rolesList) with
      | error e => simp [buildNodesGo, hb] at h
      | ok acc2 =>
          simp only [buildNodesGo, hb] at h
          obtain ⟨hv, hall⟩ := ih acc2 v h
          have hrows := buildRowsGo_ok_elim parseIP nodeId _ acc acc2 hb
          have hacc2 : acc2 = acc ++
              (expandRolesWithDefaults nodeId rows d rolesList).flatMap
                (rowRecordsOk parseIP nodeId) := by
            have h2 := buildRowsGo_ok_intro parseIP nodeId _ acc hrows
            rw [h2] at hb
            exact (Except.ok.inj hb).symm
          constructor
          · rw [hv, hacc2]
            simp [List.append_assoc]
          · intro q hq r hr
            rcases List.mem_cons.mp hq with rfl | hq2
            · exact hrows r hr
            · exact hall q hq2 r hr

/-- C6 counterexample: in the current loader the IP parse is checked before
the address-family switch, so a row whose address fails to parse AND whose
family is unrecognized ("9") is skipped like any invalid-IP row; the load
still succeeds and returns the other row's records, contradicting the claim
that an address family other than "4"/"6" always aborts the whole load with
an error and no records. -/
theorem c6_family_abort_counterexample :
    buildDNSRecords
      (fun s => if s = gs "10.0.0.5" then some ⟨gs "10.0.0.5"⟩ else none)
      [(gs "n1",
        [{ Address := gs "10.0.0.5", AddressFamily := gs "4", IsDefault := false,
           Roles := [gs "api"] },
         { Address := gs "bogus", AddressFamily := gs "9", IsDefault := false,
           Roles := [gs "web"] }])]
      [] [] =
      Except.ok
        [{ FQDN := canonicalName (gs "n1" ++ gs "-" ++ gs "api" ++ gs "." ++ ZoneDynamic),
           Typ := TypeA, TTL := 30, Content := { IP := some ⟨gs "10.0.0.5"⟩ } }] := by
  rfl

/-- C6 (amended): per row, an unparseable address only skips that row (it
contributes no records and no error, and a load whose rows all pass the
parse-then-family check succeeds with exactly the other rows' records), while
an unrecognized address family on a row whose address does parse aborts the
whole load with an error and no records. -/
theorem c6_data_errors (parseIP : GoStr → Option NetIP)
    (m : List (GoStr × List NodeRecord)) (d : List (GoStr × DefaultAddressMapV))
    (rolesList : List GoStr) :
    ((∀ p ∈ m, ∀ r ∈ expandRolesWithDefaults p.1 p.2 d rolesList,
        (parseIP r.Address).isSome = true →
          (r.AddressFamily = gs "4" ∨ r.AddressFamily = gs "6")) →
      buildDNSRecords parseIP m d rolesList =
        Except.ok (dynRecordsFlatten parseIP m d rolesList)) ∧
    (∀ (nodeId : GoStr) (r : NodeRecord), parseIP r.Address = none →
      recordsForNodeRecord parseIP nodeId r = Except.ok []) ∧
    ((∃ p ∈ m, ∃ r ∈ expandRolesWithDefaults p.1 p.2 d rolesList,
        (parseIP r.Address).isSome = true ∧
          r.AddressFamily ≠ gs "4" ∧ r.AddressFamily ≠ gs "6") →
      ∃ e, buildDNSRecords parseIP m d rolesList = Except.error e) := by
  refine ⟨?_, ?_, ?_⟩
  · intro h
    have h2 : ∀ p ∈ m, ∀ r ∈ expandRolesWithDefaults p.1 p.2 d rolesList,
        ∃ w, recordsForNodeRecord parseIP p.1 r = Except.ok w := by
      intro p hp r hr
      rw [recordsForNodeRecord_ok_iff]
      intro hip
      obtain ⟨ip, hips⟩ := hip
      exact h p hp r hr (by simp [hips])
    have h3 := buildNodesGo_ok_intro parseIP d rolesList m [] h2
    simpa [buildDNSRecords, dynRecordsFlatten] using h3
  · intro nodeId r h
    simp [recordsForNodeRecord, h]
  · rintro ⟨p, hp, r, hr, hsome, h4, h6⟩
    cases hres : buildDNSRecords parseIP m d rolesList with
    | error e => exact ⟨e, rfl⟩
    | ok v =>
        exfalso
        obtain ⟨-, hall⟩ := buildNodesGo_ok_elim parseIP d rolesList m [] v hres
        obtain ⟨w, hw⟩ := hall p hp r hr
        have hok := (recordsForNodeRecord_ok_iff parseIP p.1 r).mp ⟨w, hw⟩
        obtain ⟨ip, hips⟩ := Option.isSome_iff_exists.mp hsome
        exact absurd (hok ⟨ip, hips⟩) (by tauto)

/-- A valid row (family "4") used by concrete witnesses. -/
def wRow4 : NodeRecord :=
  { Address := gs "x4", AddressFamily := gs "4", IsDefault := false, Roles := [gs "api"] }

/-- A row with unrecognized family "9" used by concrete witnesses. -/
def wRow9 : NodeRecord :=
  { Address := gs "x", AddressFamily := gs "9", IsDefault := false, Roles := [] }

/-- Witness for the amended C6 at concrete inputs. -/
theorem c6_data_errors_witness :
    (buildDNSRecords (fun _ => none) [(gs "n1", [wRow4])] [] [] =
      Except.ok (dynRecordsFlatten (fun _ => none) [(gs "n1", [wRow4])] [] [])) ∧
    (recordsForNodeRecord (fun _ => none) (gs "n1") wRow9 = Except.ok []) ∧
    (∃ e, buildDNSRecords (fun s => some ⟨s⟩) [(gs "n1", [wRow9])] [] [] =
      Except.error e) :=
  ⟨(c6_data_errors (fun _ => none) [(gs "n1", [wRow4])] [] []).1 (by decide),
    (c6_data_errors (fun _ => none) [(gs "n1", [wRow9])] [] []).2.1 (gs "n1") wRow9 rfl,
    (c6_data_errors (fun s => some ⟨s⟩) [(gs "n1", [wRow9])] [] []).2.2 (by decide)⟩

theorem recordsForNodeRecord_fam4 (parseIP : GoStr → Option NetIP) (nodeId : GoStr)
    (r : NodeRecord) (ip : NetIP) (hip : parseIP r.Address = some ip)
    (h4 : r.AddressFamily = gs "4") :
    recordsForNodeRecord parseIP nodeId r =
      Except.ok (buildIPRecords (getFqdnsForNode nodeId r.Roles) TypeA ip) := by
  unfold recordsForNodeRecord
  simp only [hip, h4]
  simp

theorem recordsForNodeRecord_fam6 (parseIP : GoStr → Option NetIP) (nodeId : GoStr)
    (r : NodeRecord) (ip : NetIP) (hip : parseIP r.Address = some ip)
    (h6 : r.AddressFamily = gs "6") (h4 : r.AddressFamily ≠ gs "4") :
    recordsForNodeRecord parseIP nodeId r =
      Except.ok (buildIPRecords (getFqdnsForNode nodeId r.Roles) TypeAAAA ip) := by
  unfold recordsForNodeRecord
  simp only [hip]
  rw [if_neg h4, if_pos h6]

theorem buildIPRecords_single (nodeId role : GoStr) (t : Nat) (ip : NetIP) :
    buildIPRecords (getFqdnsForNode nodeId [role]) t ip =
      [⟨canonicalName (nodeId ++ gs "-" ++ role ++ gs "." ++ ZoneDynamic), t, 30,
        ⟨some ip, [], 0, 0, 0, [], []⟩⟩] := rfl

/-- C2: for every node with a default address, every catalog role not
explicitly assigned to any of the node's rows yields (in a successful load
whose default address parses) a synthesized address record named
`<node>-<role>.<dynamic zone>` carrying the default address's IP; and a node
absent from the default-address map gets no synthetic rows at all. -/
theorem c2_role_fallback_defaults (parseIP : GoStr → Option NetIP)
    (d : List (GoStr × DefaultAddressMapV)) (rolesList : List GoStr) :
    (∀ (m : List (GoStr × List NodeRecord)) (nodeId : GoStr) (rows : List NodeRecord)
        (defaultAddr : DefaultAddressMapV) (role : GoStr) (ip : NetIP)
        (recs : List Record),
      (nodeId, rows) ∈ m →
      goMapLookup d nodeId = some defaultAddr →
      role ∈ rolesList →
      role ∉ assignedRolesOf rows →
      parseIP defaultAddr.Address = some ip →
      buildDNSRecords parseIP m d rolesList = Except.ok recs →
      ∃ rec ∈ recs,
        rec.FQDN = canonicalName (nodeId ++ gs "-" ++ role ++ gs "." ++ ZoneDynamic) ∧
        rec.Content.IP = some ip ∧ (rec.Typ = TypeA ∨ rec.Typ = TypeAAAA)) ∧
    (∀ (nodeId : GoStr) (rows : List NodeRecord), goMapLookup d nodeId = none →
      expandRolesWithDefaults nodeId rows d rolesList = rows) := by
  constructor
  · intro m nodeId rows defaultAddr role ip recs hm hlook hrole hnot hip hbuild
    obtain ⟨hv, hall⟩ := buildNodesGo_ok_elim parseIP d rolesList m [] recs hbuild
    have hfr : (⟨defaultAddr.Address, defaultAddr.AddressFamily, true, [role]⟩ : NodeRecord) ∈
        expandRolesWithDefaults nodeId rows d rolesList := by
      simp only [expandRolesWithDefaults, hlook]
      refine List.mem_append_right _ ?_
      refine List.mem_map.mpr ⟨role, ?_, rfl⟩
      refine List.mem_filter.mpr ⟨hrole, ?_⟩
      simpa using hnot
    obtain ⟨w, hw⟩ := hall (nodeId, rows) hm _ hfr
    have hok := (recordsForNodeRecord_ok_iff parseIP nodeId _).mp ⟨w, hw⟩
    have hfam := hok ⟨ip, hip⟩
    have hmem : ∀ t : Nat, (t = TypeA ∨ t = TypeAAAA) →
        recordsForNodeRecord parseIP nodeId
          (⟨defaultAddr.Address, defaultAddr.AddressFamily, true, [role]⟩ : NodeRecord) =
          Except.ok [⟨canonicalName (nodeId ++ gs "-" ++ role ++ gs "." ++ ZoneDynamic),
            t, 30, ⟨some ip, [], 0, 0, 0, [], []⟩⟩] →
        ∃ rec ∈ recs,
          rec.FQDN = canonicalName (nodeId ++ gs "-" ++ role ++ gs "." ++ ZoneDynamic) ∧
          rec.Content.IP = some ip ∧ (rec.Typ = TypeA ∨ rec.Typ = TypeAAAA) := by
      intro t ht hrec
      refine ⟨⟨canonicalName (nodeId ++ gs "-" ++ role ++ gs "." ++ ZoneDynamic),
        t, 30, ⟨some ip, [], 0, 0, 0, [], []⟩⟩, ?_, rfl, rfl, ht⟩
      rw [hv]
      refine List.mem_append_right _ (List.mem_flatMap.mpr ⟨(nodeId, rows), hm, ?_⟩)
      refine List.mem_flatMap.mpr ⟨_, hfr, ?_⟩
      simp [rowRecordsOk, hrec]
    rcases hfam with h4 | h6
    · refine hmem TypeA (Or.inl rfl) ?_
      rw [recordsForNodeRecord_fam4 parseIP nodeId _ ip hip h4, buildIPRecords_single]
    · have h6x : defaultAddr.AddressFamily = gs "6" := h6
      have h4n : (⟨defaultAddr.Address, defaultAddr.AddressFamily, true,
          [role]⟩ : NodeRecord).AddressFamily ≠ gs "4" := by
        show defaultAddr.AddressFamily ≠ gs "4"
        rw [h6x]
        decide
      refine hmem TypeAAAA (Or.inr rfl) ?_
      rw [recordsForNodeRecord_fam6 parseIP nodeId _ ip hip h6 h4n, buildIPRecords_single]
  · intro nodeId rows h
    simp [expandRolesWithDefaults, h]

/-- Witness for C2: one node with no explicit rows, a default address, and a
one-role catalog; the load synthesizes the fallback record. -/
theorem c2_role_fallback_defaults_witness :
    ∃ rec ∈ [(⟨canonicalName (gs "n1" ++ gs "-" ++ gs "web" ++ gs "." ++ ZoneDynamic),
        TypeA, 30, ⟨some ⟨gs "10.0.0.5"⟩, [], 0, 0, 0, [], []⟩⟩ : Record)],
      rec.FQDN = canonicalName (gs "n1" ++ gs "-" ++ gs "web" ++ gs "." ++ ZoneDynamic) ∧
      rec.Content.IP = some ⟨gs "10.0.0.5"⟩ ∧ (rec.Typ = TypeA ∨ rec.Typ = TypeAAAA) :=
  (c2_role_fallback_defaults
      (fun s => if s = gs "10.0.0.5" then some ⟨gs "10.0.0.5"⟩ else none)
      [(gs "n1", ⟨gs "10.0.0.5", gs "4"⟩)] [gs "web"]).1
    [(gs "n1", [])] (gs "n1") [] ⟨gs "10.0.0.5", gs "4"⟩ (gs "web") ⟨gs "10.0.0.5"⟩ _
    (by simp) rfl (by simp) (by simp [assignedRolesOf]) rfl rfl

theorem foldl_append_map {α β : Type} (f : α → β) (l : List α) (acc : List β) :
    l.foldl (fun res x => res ++ [f x]) acc = acc ++ l.map f := by
  induction l generalizing acc with
  | nil => simp
  | cons x xs ih => simp [ih, List.append_assoc]

/-- C3 counterexample: in the current loader a default-flagged, role-less row
contributes no records at all; the load for one node whose only row is its
default address emits the empty record set, so no bare `<node>.<dynamic zone>`
record with the resolved IP exists, contradicting the claim. -/
theorem c3_bare_name_counterexample :
    buildDNSRecords (fun s => if s = gs "10.0.0.5" then some ⟨gs "10.0.0.5"⟩ else none)
      [(gs "n1", [⟨gs "10.0.0.5", gs "4", true, []⟩])]
      [(gs "n1", ⟨gs "10.0.0.5", gs "4"⟩)] [] =
      Except.ok [] := rfl

/-- C3 (amended): the current loader derives FQDNs from roles only — each
role yields exactly the name `<node>-<role>.<dynamic zone>` and the default
flag adds nothing — so a role-less row (in particular a bare default-address
row) contributes no records (or aborts on a bad family); the bare
`<node>.<dynamic zone>` name is never emitted. -/
theorem c3_no_bare_node_name :
    (∀ (nodeId : GoStr) (roles : List GoStr),
      getFqdnsForNode nodeId roles =
        roles.map (fun role =>
          canonicalName (nodeId ++ gs "-" ++ role ++ gs "." ++ ZoneDynamic))) ∧
    (∀ (parseIP : GoStr → Option NetIP) (nodeId : GoStr) (r : NodeRecord), r.Roles = [] →
      recordsForNodeRecord parseIP nodeId r = Except.ok [] ∨
        ∃ e, recordsForNodeRecord parseIP nodeId r = Except.error e) := by
  constructor
  · intro nodeId roles
    simpa [getFqdnsForNode] using foldl_append_map
      (fun role => canonicalName (nodeId ++ gs "-" ++ role ++ gs "." ++ ZoneDynamic)) roles []
  · intro parseIP nodeId r hr
    cases hp : parseIP r.Address with
    | none =>
        left
        simp [recordsForNodeRecord, hp]
    | some ip =>
        by_cases h4 : r.AddressFamily = gs "4"
        · left
          rw [recordsForNodeRecord_fam4 parseIP nodeId r ip hp h4, hr]
          rfl
        · by_cases h6 : r.AddressFamily = gs "6"
          · left
            rw [recordsForNodeRecord_fam6 parseIP nodeId r ip hp h6 h4, hr]
            rfl
          · right
            refine ⟨gs "unknown address family " ++ r.AddressFamily ++
              gs " for node " ++ nodeId, ?_⟩
            unfold recordsForNodeRecord
            simp only [hp]
            rw [if_neg h4, if_neg h6]

/-- Witness for the amended C3 at a concrete role-less default row. -/
theorem c3_no_bare_node_name_witness :
    recordsForNodeRecord (fun _ => none) (gs "n1")
        ⟨gs "10.0.0.5", gs "4", true, []⟩ = Except.ok [] ∨
      ∃ e, recordsForNodeRecord (fun _ => none) (gs "n1")
        ⟨gs "10.0.0.5", gs "4", true, []⟩ = Except.error e :=
  c3_no_bare_node_name.2 (fun _ => none) (gs "n1") ⟨gs "10.0.0.5", gs "4", true, []⟩ rfl

/-- Model of the `staticFile` struct (`internal/static/parse.go`): the decoded
JSON content; `Nodes` maps node ids to IP strings. -/
structure StaticFile where
  Version : GoStr := []
  Nodes : List (GoStr × GoStr) := []
  ClusterId : GoStr := []
  DatacenterId : GoStr := []
  JoiningToCluster : Bool := false
deriving DecidableEq, Repr

/-- Model of `parseStaticFile` (`internal/static/parse.go`, lines 38-70) over
a pre-decoded outcome (the JSON decoder is external): on decode failure the
error propagates; otherwise one record per node whose IP parses (invalid IPs
are skipped), with type A when `ip.To4() != nil` (modelled by `isV4`) and
AAAA otherwise, named `<nodeId>.<bootstrap zone>` and stamped with `ttl`. -/
def parseStaticFile (parseIP : GoStr → Option NetIP) (isV4 : NetIP → Bool)
    (decoded : Except Unit StaticFile) (ttl : Nat) : Except Unit (List Record) :=
  match decoded with
  | .error e => .error e
  | .ok config =>
    .ok (config.Nodes.foldl (fun records p =>
      match parseIP p.2 with
      | none => records
      | some ip =>
        records ++ [⟨canonicalName (p.1 ++ gs "." ++ ZoneBootstrap),
          if isV4 ip then TypeA else TypeAAAA, ttl,
          ⟨some ip, [], 0, 0, 0, [], []⟩⟩]) [])

/-- Mutable state of the static adapter `Plugin` (`src/unnamed/part_005`):
the change-detection pair and the cached record set. -/
structure StaticState where
  cachedSize : Int
  cachedMtime : Int
  records : List Record
deriving DecidableEq, Repr

/-- The file system's answer to one refresh attempt: open failure, stat
failure, or a stat (size, mtime) together with the decode outcome of the
content. -/
inductive FileView
  | openError
  | statError
  | file (size : Int) (mtime : Int) (content : Except Unit StaticFile)
deriving Repr

/-- Model of `Plugin.ReadStatic` (`internal/static/parse.go`, lines 72-107)
as a state transition; the boolean result records whether the decode step
ran. Open and stat failures return before the change check; an unchanged
(size, mtime) pair returns before the decode; a decode failure returns
before the cache update; only a successful decode replaces the cached
records and the (size, mtime) pair. -/
def ReadStatic (parseIP : GoStr → Option NetIP) (isV4 : NetIP → Bool) (ttl : Nat)
    (s : StaticState) (f : FileView) : StaticState × Bool :=
  match f with
  | .openError => (s, false)
  | .statError => (s, false)
  | .file size mtime content =>
    if size = s.cachedSize ∧ mtime = s.cachedMtime then (s, false)
    else
      match parseStaticFile parseIP isV4 content ttl with
      | .error _ => (s, true)
      | .ok records => (⟨size, mtime, records⟩, true)

/-- C9 counterexample: after a refresh whose decode failed, the cached
(size, mtime) pair is still stale, so a second refresh with no file
modification in between runs the decode step again — contradicting the
claim that the second refresh performs no decode. -/
theorem c9_second_decode_counterexample :
    (ReadStatic (fun _ => none) (fun _ => true) 10
      (ReadStatic (fun _ => none) (fun _ => true) 10 ⟨0, 0, []⟩
        (.file 5 7 (.error ()))).1
      (.file 5 7 (.error ()))).2 = true := rfl

/-- C9 (amended): refresh leaves the cached record set and the cached
(size, mtime) pair unchanged on open failure, stat failure, an unchanged
(size, mtime) pair, and decode failure; a second refresh against the same
file view never changes the cache, and performs no decode whenever the file
decodes successfully — only after a failed decode is the decode step
re-attempted. -/
theorem c9_refresh_frame (parseIP : GoStr → Option NetIP) (isV4 : NetIP → Bool)
    (ttl : Nat) (s : StaticState) :
    (ReadStatic parseIP isV4 ttl s .openError = (s, false)) ∧
    (ReadStatic parseIP isV4 ttl s .statError = (s, false)) ∧
    (∀ content, ReadStatic parseIP isV4 ttl s
        (.file s.cachedSize s.cachedMtime content) = (s, false)) ∧
    (∀ size mtime, (ReadStatic parseIP isV4 ttl s (.file size mtime (.error ()))).1 = s) ∧
    (∀ f, (ReadStatic parseIP isV4 ttl
        (ReadStatic parseIP isV4 ttl s f).1 f).1 = (ReadStatic parseIP isV4 ttl s f).1) ∧
    (∀ size mtime config, (ReadStatic parseIP isV4 ttl
        (ReadStatic parseIP isV4 ttl s (.file size mtime (.ok config))).1
        (.file size mtime (.ok config))).2 = false) := by
  refine ⟨rfl, rfl, ?_, ?_, ?_, ?_⟩
  · intro content
    simp [ReadStatic]
  · intro size mtime
    simp only [ReadStatic, parseStaticFile]
    split <;> rfl
  · intro f
    cases f with
    | openError => rfl
    | statError => rfl
    | file size mtime content =>
        by_cases h : size = s.cachedSize ∧ mtime = s.cachedMtime
        · simp [ReadStatic, h]
        · cases hc : parseStaticFile parseIP isV4 content ttl with
          | error e => simp [ReadStatic, h, hc]
          | ok records => simp [ReadStatic, h, hc]
  · intro size mtime config
    by_cases h : size = s.cachedSize ∧ mtime = s.cachedMtime
    · simp [ReadStatic, h]
    · simp [ReadStatic, h, parseStaticFile]

/-- Lower-cased labels of a domain name: split on dots, dropping empty
fragments (model of miekg/dns label handling for names without escaped or
empty labels, as used by the zone router). -/
def domainLabels (s : GoStr) : List GoStr :=
  ((s.map Char.toLower).splitOn '.').filter (fun l => l ≠ [])

/-- Model of miekg/dns `IsSubDomain`: the parent's labels are a
case-insensitive suffix of the child's labels
(`CompareDomainName(parent, child) == CountLabel(parent)`). -/
def isSubDomainGo (parent child : GoStr) : Bool :=
  (domainLabels parent).isSuffixOf (domainLabels child)

/-- Model of coredns `plugin.Zones.Matches`: the longest configured zone the
query name is a subdomain of, or the empty string when none matches. -/
def zonesMatches (zones : List GoStr) (qname : GoStr) : GoStr :=
  zones.foldl (fun zone zname =>
    if isSubDomainGo zname qname ∧ zname.length > zone.length then zname else zone) []

/-- Model of `PcePlugin.canFallthrough` over normalized fallthrough zones
(`src/unnamed/part_002`, lines 59-61): a query may fall through when some
configured fallthrough zone matches it. -/
def canFallthrough (fallthroughZones : List GoStr) (qName : GoStr) : Bool :=
  decide (zonesMatches fallthroughZones qName ≠ [])

/-- The lookup capability of an adapter at the `util.Adapter` boundary
(`internal/util/zones.go`, lines 30-32): records, nameExists, or an error. -/
structure AdapterB where
  lookup : GoStr → Nat → Except GoStr (List Record × Bool)

/-- Model of the `PcePlugin` state of `internal/plugin/base.go`: the two
adapters behind the fixed zone list. -/
structure PcePluginM where
  dbA : AdapterB
  staticA : AdapterB

/-- Model of `PcePlugin.adapterFromZone` (`internal/plugin/base.go`,
lines 48-57): dynamic zone to the db adapter, bootstrap zone to the static
adapter, anything else an error. -/
def adapterFromZone (p : PcePluginM) (zone : GoStr) : Except GoStr AdapterB :=
  if zone = ZoneDynamic then .ok p.dbA
  else if zone = ZoneBootstrap then .ok p.staticA
  else .error (gs "unknown zone: " ++ zone)

/-- Outcome of one top-level resolution (`ServeDNS` call): delegate to the
next plugin, write an error rcode, or write a Success answer. -/
inductive ServeResult
  | nextPlugin
  | err (rcode : Nat)
  | success (answers : List WireRR)
deriving DecidableEq, Repr

/-- Model of the zone-dispatch `PcePlugin.ServeDNS` (`src/unnamed/part_003`,
lines 28-80): no matching zone delegates to the next plugin; adapter or
lookup failure is SERVFAIL; found records encode into a Success answer
(encode failure is SERVFAIL); no records with nameExists true is NODATA
(Success with empty answers); otherwise NameError — with no fallthrough
consultation anywhere on this path. -/
def serveDNS (p : PcePluginM) (qName : GoStr) (qType : Nat) : ServeResult :=
  let zone := zonesMatches ZonesList qName
  if zone = [] then .nextPlugin
  else
    match adapterFromZone p zone with
    | .error _ => .err RcodeServerFailure
    | .ok adapter =>
      match adapter.lookup qName qType with
      | .error _ => .err RcodeServerFailure
      | .ok (records, nameExists) =>
        if 0 < records.length then
          let t := recordsToRRs records
          match t.2.2 with
          | some _ => .err RcodeServerFailure
          | none => .success (t.1.getD [])
        else if nameExists then .success []
        else .err RcodeNameError

/-- C4: when the query's zone resolves to an adapter whose lookup succeeds
with zero records but nameExists true, the resolution returns Success with
an empty answer section (NODATA), not NameError. -/
theorem c4_nodata_success (p : PcePluginM) (qName : GoStr) (qType : Nat)
    (zone : GoStr) (adapter : AdapterB)
    (hz : zonesMatches ZonesList qName = zone) (hz0 : zone ≠ [])
    (ha : adapterFromZone p zone = Except.ok adapter)
    (hl : adapter.lookup qName qType = Except.ok ([], true)) :
    serveDNS p qName qType = ServeResult.success [] := by
  simp only [serveDNS, hz, ha, hl]
  rw [if_neg hz0]
  simp

/-- Witness for C4 at a concrete plugin state and query. -/
theorem c4_nodata_success_witness :
    serveDNS ⟨⟨fun _ _ => Except.ok ([], true)⟩, ⟨fun _ _ => Except.ok ([], true)⟩⟩
      (gs "x.pce.internal.") TypeA = ServeResult.success [] :=
  c4_nodata_success ⟨⟨fun _ _ => Except.ok ([], true)⟩, ⟨fun _ _ => Except.ok ([], true)⟩⟩
    (gs "x.pce.internal.") TypeA ZoneDynamic ⟨fun _ _ => Except.ok ([], true)⟩
    (by decide) (by decide) rfl rfl

/-- C5 counterexample: with the fallthrough machinery configured so that the
query's zone is in the fallthrough set (normalized fallthrough zone "."),
a query in a served zone whose lookup succeeds with zero records and
nameExists false still receives NameError from the zone-dispatch resolution
instead of a delegation to the next plugin: the fallthrough set is never
consulted on that path. -/
theorem c5_fallthrough_counterexample :
    canFallthrough [gs "."] (gs "x.pce.internal.") = true ∧
    serveDNS ⟨⟨fun _ _ => Except.ok ([], false)⟩, ⟨fun _ _ => Except.ok ([], false)⟩⟩
      (gs "x.pce.internal.") TypeA = ServeResult.err RcodeNameError := by
  exact ⟨by decide, by decide⟩

/-- C5 (amended): in the zone-dispatch resolution, a successful lookup with
zero records and nameExists false yields NameError (NXDOMAIN)
unconditionally; no fallthrough set is consulted on this path (the
fallthrough configuration affects only the deprecated priority-try
handler). -/
theorem c5_nxdomain_unconditional (p : PcePluginM) (qName : GoStr) (qType : Nat)
    (zone : GoStr) (adapter : AdapterB)
    (hz : zonesMatches ZonesList qName = zone) (hz0 : zone ≠ [])
    (ha : adapterFromZone p zone = Except.ok adapter)
    (hl : adapter.lookup qName qType = Except.ok ([], false)) :
    serveDNS p qName qType = ServeResult.err RcodeNameError := by
  simp only [serveDNS, hz, ha, hl]
  rw [if_neg hz0]
  simp

/-- Witness for the amended C5 at a concrete plugin state and query. -/
theorem c5_nxdomain_unconditional_witness :
    serveDNS ⟨⟨fun _ _ => Except.ok ([], false)⟩, ⟨fun _ _ => Except.ok ([], false)⟩⟩
      (gs "y.bootstrap.pce.internal.") TypeA = ServeResult.err RcodeNameError :=
  c5_nxdomain_unconditional
    ⟨⟨fun _ _ => Except.ok ([], false)⟩, ⟨fun _ _ => Except.ok ([], false)⟩⟩
    (gs "y.bootstrap.pce.internal.") TypeA ZoneBootstrap
    ⟨fun _ _ => Except.ok ([], false)⟩ (by decide) (by decide) rfl rfl
